import Mathlib

/-!
Verification of the rectangle-packing core of `src/rects.js`.

The geometry and the packer are embedded shallowly over `ℚ`:
JS numbers become exact rationals, the stream of `Math.random()` draws
becomes an explicit function `s : ℕ → ℚ` (each draw lies in `[0, 1)`),
and the `while` loop of `generateRectangles` becomes a fuel-indexed
recursion whose fuel is the remaining attempt budget
(`MAX_TOTAL_ATTEMPTS - attempts` in the JS code).

The JS code computes `Math.hypot(dx, dy)` and compares `dist < gap` and
`dist === 0`.  Since `hypot` is nonnegative and the only call site uses
`gap = GAP = 2 ≥ 0`, the embedding compares squares instead:
`hypot(dx, dy) < gap ↔ dx² + dy² < gap²` and
`hypot(dx, dy) = 0 ↔ dx² + dy² = 0`, both valid for `gap ≥ 0`.
Theorems about the Euclidean distance itself are stated with
`Real.sqrt` applied to the squared distance.
-/

namespace RectangleJoy

/-- An axis-aligned rectangle `{x, y, w, h}` with top-left corner `(x, y)`,
in CSS-pixel coordinates (JS numbers, embedded as `ℚ`). -/
structure Rect where
  x : ℚ
  y : ℚ
  w : ℚ
  h : ℚ
deriving DecidableEq

/-- `GAP` from `src/rects.js` line 10: pixels between any two rectangle borders. -/
def GAP : ℚ := 2

/-- `MAX_ATTEMPTS_PER_RECT` from `src/rects.js` line 11. -/
def MAX_ATTEMPTS_PER_RECT : ℕ := 500

/-- `rectContains(outer, inner)` from `src/rects.js` lines 97-104:
inclusive containment of `inner` in `outer`. -/
def rectContains (outer inner : Rect) : Bool :=
  decide (inner.x ≥ outer.x) &&
  decide (inner.y ≥ outer.y) &&
  decide (inner.x + inner.w ≤ outer.x + outer.w) &&
  decide (inner.y + inner.h ≤ outer.y + outer.h)

/-- `containsWithGap(outer, inner, gap)` from `src/rects.js` lines 106-113. -/
def containsWithGap (outer inner : Rect) (gap : ℚ) : Bool :=
  decide (inner.x - outer.x ≥ gap) &&
  decide (inner.y - outer.y ≥ gap) &&
  decide (outer.x + outer.w - (inner.x + inner.w) ≥ gap) &&
  decide (outer.y + outer.h - (inner.y + inner.h) ≥ gap)

/-- `rectsIntersectStrict(a, b)` from `src/rects.js` lines 115-123:
true if areas overlap (not just touching edges). -/
def rectsIntersectStrict (a b : Rect) : Bool :=
  !(decide (a.x + a.w ≤ b.x) ||
    decide (b.x + b.w ≤ a.x) ||
    decide (a.y + a.h ≤ b.y) ||
    decide (b.y + b.h ≤ a.y))

/-- `rectsTouchOrOverlap(a, b)` from `src/rects.js` lines 125-133:
true if they overlap or touch (zero gap). -/
def rectsTouchOrOverlap (a b : Rect) : Bool :=
  !(decide (a.x + a.w < b.x) ||
    decide (b.x + b.w < a.x) ||
    decide (a.y + a.h < b.y) ||
    decide (b.y + b.h < a.y))

/-- The `dx` computed by `minEdgeDistance(a, b)` (`src/rects.js` lines 169-174):
the horizontal separation, `0` when the x-projections overlap. -/
def sepX (a b : Rect) : ℚ :=
  if a.x > b.x + b.w then a.x - (b.x + b.w)
  else if b.x > a.x + a.w then b.x - (a.x + a.w)
  else 0

/-- The `dy` computed by `minEdgeDistance(a, b)` (`src/rects.js` lines 175-180). -/
def sepY (a b : Rect) : ℚ :=
  if a.y > b.y + b.h then a.y - (b.y + b.h)
  else if b.y > a.y + a.h then b.y - (a.y + a.h)
  else 0

/-- The square of `minEdgeDistance(a, b)` (`src/rects.js` lines 168-182, which
returns `Math.hypot(dx, dy)`); the minimum edge-to-edge Euclidean distance is
`Real.sqrt` of this value. -/
def minEdgeDistSq (a b : Rect) : ℚ :=
  sepX a b ^ 2 + sepY a b ^ 2

/-- The body of the `isValidPlacement` loop (`src/rects.js` lines 218-246)
for one existing rectangle `r`: the checks a candidate must pass against `r`.
`dist < gap` and `dist === 0` are rendered on squares (valid for `gap ≥ 0`;
the only call site passes `GAP = 2`). -/
def validAgainst (candidate r : Rect) (gap : ℚ) : Bool :=
  if rectsIntersectStrict candidate r then false
  else
    let touchOrOverlap := rectsTouchOrOverlap candidate r
    let candInR := rectContains r candidate
    let rInCand := rectContains candidate r
    if candInR || rInCand then
      if candInR then containsWithGap r candidate gap
      else containsWithGap candidate r gap
    else
      let dSq := minEdgeDistSq candidate r
      if decide (dSq < gap ^ 2) then false
      else if touchOrOverlap && decide (dSq = 0) then false
      else true

/-- `isValidPlacement(candidate, rects, gap)` from `src/rects.js` lines 217-248:
the candidate must pass `validAgainst` for every already-placed rectangle
(the JS `for` loop short-circuits on the first violation, as `List.all` does). -/
def isValidPlacement (candidate : Rect) (rects : List Rect) (gap : ℚ) : Bool :=
  rects.all fun r => validAgainst candidate r gap

/-- `randInt(min, max)` from `src/rects.js` lines 287-290, with the
`Math.random()` draw `r ∈ [0, 1)` made explicit:
`Math.floor(r * (max - min + 1)) + min`. -/
def randInt (r lo hi : ℚ) : ℚ :=
  (⌊r * (hi - lo + 1)⌋ : ℤ) + lo

/-- The candidate rectangle built by one iteration of the `generateRectangles`
loop (`src/rects.js` lines 265-274), with the four `Math.random()` draws of the
iteration taken from the stream `s` at positions `idx .. idx+3` in call order
(`w`, `h`, `x`, `y`). -/
def candAt (width height minSize maxSize : ℚ) (s : ℕ → ℚ) (idx : ℕ) : Rect :=
  let w := randInt (s idx) minSize maxSize
  let h := randInt (s (idx + 1)) minSize maxSize
  let x := randInt (s (idx + 2)) 0 (max 0 (width - w))
  let y := randInt (s (idx + 3)) 0 (max 0 (height - h))
  ⟨x, y, w, h⟩

/-- The `while` loop of `generateRectangles` (`src/rects.js` lines 262-279),
as a fuel-indexed recursion.  `fuel` is the remaining attempt budget
(`MAX_TOTAL_ATTEMPTS - attempts`), `idx` the position of the next random draw,
`rects` the accumulator (JS `push` appends at the end), and `attempts` the
attempt counter.  Returns the final `(rects, attempts)`. -/
def genLoop (width height minSize maxSize : ℚ) (s : ℕ → ℚ) (targetCount : ℕ) :
    ℕ → ℕ → List Rect → ℕ → List Rect × ℕ
  | 0, _, rects, attempts => (rects, attempts)
  | fuel + 1, idx, rects, attempts =>
    if rects.length < targetCount then
      let cand := candAt width height minSize maxSize s idx
      if isValidPlacement cand rects GAP then
        genLoop width height minSize maxSize s targetCount fuel (idx + 4)
          (rects ++ [cand]) (attempts + 1)
      else
        genLoop width height minSize maxSize s targetCount fuel (idx + 4)
          rects (attempts + 1)
    else (rects, attempts)

/-- `generateRectangles(width, height, targetCount, minSize, maxSize)` from
`src/rects.js` lines 251-285, with the random stream `s` explicit:
runs the loop with fuel `MAX_TOTAL_ATTEMPTS = targetCount * MAX_ATTEMPTS_PER_RECT`
and returns the placed rectangles. -/
def generateRectangles (width height : ℚ) (targetCount : ℕ)
    (minSize maxSize : ℚ) (s : ℕ → ℚ) : List Rect :=
  (genLoop width height minSize maxSize s targetCount
    (targetCount * MAX_ATTEMPTS_PER_RECT) 0 [] 0).1

/-- The final value of the `attempts` counter of the same `generateRectangles`
run (logged at `src/rects.js` lines 281-283): the number of loop iterations
executed, i.e. the number of `isValidPlacement` calls. -/
def generateAttempts (width height : ℚ) (targetCount : ℕ)
    (minSize maxSize : ℚ) (s : ℕ → ℚ) : ℕ :=
  (genLoop width height minSize maxSize s targetCount
    (targetCount * MAX_ATTEMPTS_PER_RECT) 0 [] 0).2

/-- The `validAgainst` check with the final touch-or-overlap / zero-distance
rejection clause (`src/rects.js` line 245) removed; second definition for the
refinement question of whether that clause is ever decisive at `gap = GAP`. -/
def validAgainstSansTouch (candidate r : Rect) (gap : ℚ) : Bool :=
  if rectsIntersectStrict candidate r then false
  else
    let candInR := rectContains r candidate
    let rInCand := rectContains candidate r
    if candInR || rInCand then
      if candInR then containsWithGap r candidate gap
      else containsWithGap candidate r gap
    else
      let dSq := minEdgeDistSq candidate r
      if decide (dSq < gap ^ 2) then false
      else true

/-- `isValidPlacement` built on the clause-removed check. -/
def isValidPlacementSansTouch (candidate : Rect) (rects : List Rect) (gap : ℚ) : Bool :=
  rects.all fun r => validAgainstSansTouch candidate r gap

/-- `Math.round` as used by `clampNumber` (`src/rects.js` line 455):
rounds half-up, i.e. `⌊q + 1/2⌋`. -/
def jsRound (q : ℚ) : ℤ :=
  ⌊q + 1 / 2⌋

/-- `clampNumber(value, min, max, fallback)` from `src/rects.js` lines 452-459.
`value` is `some q` when `Number(value)` is the finite number `q`, and `none`
when it is `NaN` or `±Infinity` (missing or non-numeric field). -/
def clampNumber (value : Option ℚ) (lo hi fallback : ℚ) : ℚ :=
  match value with
  | none => fallback
  | some num =>
    let rounded : ℚ := (jsRound num : ℤ)
    if rounded < lo then lo
    else if rounded > hi then hi
    else rounded

/-- The numeric fields of an external config object as seen by
`sanitizeConfig`: each field is `some q` when `Number(field)` is finite,
`none` otherwise.  (The `color` and `colorZones` fields are sanitized
independently by `parseColor` / `sanitizeColorZones` and play no part in
the numeric claims, so they are not modelled.) -/
structure RawConfig where
  minSize : Option ℚ
  maxSize : Option ℚ
  count : Option ℚ

/-- The numeric fields of the sanitized configuration. -/
structure CleanConfig where
  minSize : ℚ
  maxSize : ℚ
  count : ℚ
deriving DecidableEq

/-- The numeric part of `sanitizeConfig(config)` from `src/rects.js`
lines 386-404.  `none` models a `null` / non-object argument, which returns
the defaults `DEFAULT_CONFIG` (`minSize = 5`, `maxSize = 50`, `count = 1000`,
lines 36-42). -/
def sanitizeConfig (config : Option RawConfig) : CleanConfig :=
  match config with
  | none => ⟨5, 50, 1000⟩
  | some c =>
    let minSize := clampNumber c.minSize 5 30 5
    let maxCandidate := clampNumber c.maxSize 10 50 (max 50 minSize)
    let maxSize := max minSize maxCandidate
    let count := clampNumber c.count 500 5000 1000
    ⟨minSize, maxSize, count⟩

/-! ### Supporting lemmas: geometry -/

/-- Strict area intersection as the spec and claims phrase it on coordinates. -/
def StrictOverlapP (a b : Rect) : Prop :=
  a.x < b.x + b.w ∧ b.x < a.x + a.w ∧ a.y < b.y + b.h ∧ b.y < a.y + a.h

lemma strictOverlapP_symm {a b : Rect} (h : StrictOverlapP a b) : StrictOverlapP b a := by
  obtain ⟨h1, h2, h3, h4⟩ := h
  exact ⟨h2, h1, h4, h3⟩

lemma rectsIntersectStrict_eq_false_iff {a b : Rect} :
    rectsIntersectStrict a b = false ↔ ¬ StrictOverlapP a b := by
  simp only [rectsIntersectStrict, StrictOverlapP, Bool.not_eq_false', Bool.or_eq_true,
    decide_eq_true_eq, not_and_or, not_lt]
  tauto

/-- Inclusive containment both ways forces equality of the rectangles. -/
lemma rectContains_antisymm {a b : Rect} (h1 : rectContains a b = true)
    (h2 : rectContains b a = true) : a = b := by
  simp only [rectContains, Bool.and_eq_true, decide_eq_true_eq, ge_iff_le, and_assoc] at h1 h2
  obtain ⟨hx1, hy1, hx2, hy2⟩ := h1
  obtain ⟨hx3, hy3, hx4, hy4⟩ := h2
  cases a
  cases b
  simp only [Rect.mk.injEq]
  refine ⟨by linarith, by linarith, by linarith, by linarith⟩

/-- The complete case analysis of a successful `validAgainst` check. -/
lemma validAgainst_true_cases {c r : Rect} {g : ℚ} (h : validAgainst c r g = true) :
    rectsIntersectStrict c r = false ∧
    ((rectContains r c = true ∧ containsWithGap r c g = true) ∨
     (rectContains r c = false ∧ rectContains c r = true ∧ containsWithGap c r g = true) ∨
     (rectContains r c = false ∧ rectContains c r = false ∧
       ¬ (minEdgeDistSq c r < g ^ 2))) := by
  unfold validAgainst at h
  by_cases h1 : rectsIntersectStrict c r = true
  · simp [h1] at h
  · rw [Bool.not_eq_true] at h1
    refine ⟨h1, ?_⟩
    rw [h1] at h
    simp only [Bool.false_eq_true, if_false] at h
    by_cases h2 : rectContains r c = true
    · simp only [h2, Bool.true_or, if_true] at h
      exact Or.inl ⟨h2, h⟩
    · rw [Bool.not_eq_true] at h2
      rw [h2] at h
      simp only [Bool.false_or, Bool.false_eq_true, if_false] at h
      by_cases h3 : rectContains c r = true
      · simp only [h3, if_true] at h
        exact Or.inr (Or.inl ⟨h2, h3, h⟩)
      · rw [Bool.not_eq_true] at h3
        rw [h3] at h
        simp only [Bool.false_eq_true, if_false] at h
        by_cases h4 : minEdgeDistSq c r < g ^ 2
        · simp [h4] at h
        · exact Or.inr (Or.inr ⟨h2, h3, h4⟩)

lemma validAgainst_no_overlap {c r : Rect} {g : ℚ} (h : validAgainst c r g = true) :
    rectsIntersectStrict c r = false :=
  (validAgainst_true_cases h).1

lemma validAgainst_distSq {c r : Rect} {g : ℚ} (h : validAgainst c r g = true)
    (h1 : rectContains r c = false) (h2 : rectContains c r = false) :
    g ^ 2 ≤ minEdgeDistSq c r := by
  rcases (validAgainst_true_cases h).2 with ⟨hc, _⟩ | ⟨_, hc, _⟩ | ⟨_, _, hd⟩
  · rw [h1] at hc
    cases hc
  · rw [h2] at hc
    cases hc
  · exact not_lt.mp hd

lemma validAgainst_margin₁ {c r : Rect} {g : ℚ} (h : validAgainst c r g = true)
    (hc : rectContains r c = true) : containsWithGap r c g = true := by
  rcases (validAgainst_true_cases h).2 with ⟨_, hm⟩ | ⟨hf, _, _⟩ | ⟨hf, _, _⟩
  · exact hm
  · rw [hc] at hf
    cases hf
  · rw [hc] at hf
    cases hf

lemma validAgainst_margin₂ {c r : Rect} {g : ℚ} (hg : 0 < g) (h : validAgainst c r g = true)
    (hc : rectContains c r = true) : containsWithGap c r g = true := by
  rcases (validAgainst_true_cases h).2 with ⟨hrc, hm⟩ | ⟨_, _, hm⟩ | ⟨_, hf, _⟩
  · obtain rfl : r = c := rectContains_antisymm hrc hc
    simp only [containsWithGap, Bool.and_eq_true, decide_eq_true_eq, ge_iff_le] at hm
    have := hm.1.1.1
    linarith
  · exact hm
  · rw [hc] at hf
    cases hf

lemma sepX_comm {a b : Rect} (ha : 0 ≤ a.w) (hb : 0 ≤ b.w) : sepX a b = sepX b a := by
  unfold sepX
  split_ifs <;> first | rfl | linarith

lemma sepY_comm {a b : Rect} (ha : 0 ≤ a.h) (hb : 0 ≤ b.h) : sepY a b = sepY b a := by
  unfold sepY
  split_ifs <;> first | rfl | linarith

lemma minEdgeDistSq_comm {a b : Rect} (haw : 0 ≤ a.w) (hbw : 0 ≤ b.w)
    (hah : 0 ≤ a.h) (hbh : 0 ≤ b.h) : minEdgeDistSq a b = minEdgeDistSq b a := by
  unfold minEdgeDistSq
  rw [sepX_comm haw hbw, sepY_comm hah hbh]

/-- From a squared distance of at least `4`, the Euclidean distance is at least `2`. -/
lemma two_le_sqrt {q : ℚ} (h : 4 ≤ q) : (2 : ℝ) ≤ Real.sqrt ((q : ℚ) : ℝ) := by
  have h4 : ((4 : ℚ) : ℝ) ≤ ((q : ℚ) : ℝ) := by exact_mod_cast h
  have hs : Real.sqrt (((4 : ℚ) : ℝ)) = 2 := by
    rw [show (((4 : ℚ) : ℝ)) = (2 : ℝ) ^ 2 by norm_num, Real.sqrt_sq (by norm_num)]
  calc (2 : ℝ) = Real.sqrt (((4 : ℚ) : ℝ)) := hs.symm
    _ ≤ Real.sqrt ((q : ℚ) : ℝ) := Real.sqrt_le_sqrt h4

/-! ### Supporting lemmas: the random draws -/

/-- `randInt` with integer bounds `lo ≤ hi` and a draw in `[0, 1)` produces an
integer in `[lo, hi]`. -/
lemma randInt_int_bounds {r : ℚ} (lo hi : ℤ) (h0 : 0 ≤ r) (h1 : r < 1) (hlh : lo ≤ hi) :
    ∃ k : ℤ, randInt r (lo : ℚ) (hi : ℚ) = (k : ℚ) ∧ lo ≤ k ∧ k ≤ hi := by
  have hcast : (lo : ℚ) ≤ (hi : ℚ) := by exact_mod_cast hlh
  have hpos : (0 : ℚ) < (hi : ℚ) - (lo : ℚ) + 1 := by linarith
  have hfl0 : 0 ≤ ⌊r * ((hi : ℚ) - (lo : ℚ) + 1)⌋ := by
    rw [Int.le_floor]
    simpa using mul_nonneg h0 hpos.le
  have hflU : ⌊r * ((hi : ℚ) - (lo : ℚ) + 1)⌋ < hi - lo + 1 := by
    rw [Int.floor_lt]
    have := mul_lt_of_lt_one_left hpos h1
    push_cast
    linarith
  refine ⟨⌊r * ((hi : ℚ) - (lo : ℚ) + 1)⌋ + lo, ?_, by omega, by omega⟩
  unfold randInt
  push_cast
  ring

/-! ### Supporting lemmas: the placement loop -/

lemma genLoop_mem {width height minSize maxSize : ℚ} {s : ℕ → ℚ} {tc : ℕ} {Q : Rect → Prop}
    (hQ : ∀ idx, Q (candAt width height minSize maxSize s idx)) :
    ∀ (fuel idx : ℕ) (rects : List Rect) (att : ℕ), (∀ r ∈ rects, Q r) →
      ∀ r ∈ (genLoop width height minSize maxSize s tc fuel idx rects att).1, Q r := by
  intro fuel
  induction fuel with
  | zero =>
    intro idx rects att hr
    simpa [genLoop] using hr
  | succ n ih =>
    intro idx rects att hr
    simp only [genLoop]
    by_cases hlt : rects.length < tc
    · rw [if_pos hlt]
      by_cases hv : isValidPlacement (candAt width height minSize maxSize s idx) rects GAP = true
      · rw [if_pos hv]
        apply ih
        intro r hrm
        rcases List.mem_append.mp hrm with hin | hin
        · exact hr r hin
        · rw [List.mem_singleton] at hin
          subst hin
          exact hQ idx
      · rw [if_neg hv]
        exact ih _ _ _ hr
    · rw [if_neg hlt]
      exact hr

lemma genLoop_pairwise {width height minSize maxSize : ℚ} {s : ℕ → ℚ} {tc : ℕ} :
    ∀ (fuel idx : ℕ) (rects : List Rect) (att : ℕ),
      List.Pairwise (fun a b => validAgainst b a GAP = true) rects →
      List.Pairwise (fun a b => validAgainst b a GAP = true)
        (genLoop width height minSize maxSize s tc fuel idx rects att).1 := by
  intro fuel
  induction fuel with
  | zero =>
    intro idx rects att hp
    simpa [genLoop] using hp
  | succ n ih =>
    intro idx rects att hp
    simp only [genLoop]
    by_cases hlt : rects.length < tc
    · rw [if_pos hlt]
      by_cases hv : isValidPlacement (candAt width height minSize maxSize s idx) rects GAP = true
      · rw [if_pos hv]
        apply ih
        refine List.pairwise_append.mpr ⟨hp, by simp, ?_⟩
        intro a ha b hb
        rw [List.mem_singleton] at hb
        subst hb
        exact List.all_eq_true.mp hv a ha
      · rw [if_neg hv]
        exact ih _ _ _ hp
    · rw [if_neg hlt]
      exact hp

lemma genLoop_length {width height minSize maxSize : ℚ} {s : ℕ → ℚ} {tc : ℕ} :
    ∀ (fuel idx : ℕ) (rects : List Rect) (att : ℕ), rects.length ≤ tc →
      (genLoop width height minSize maxSize s tc fuel idx rects att).1.length ≤ tc := by
  intro fuel
  induction fuel with
  | zero =>
    intro idx rects att hl
    simpa [genLoop] using hl
  | succ n ih =>
    intro idx rects att hl
    simp only [genLoop]
    by_cases hlt : rects.length < tc
    · rw [if_pos hlt]
      by_cases hv : isValidPlacement (candAt width height minSize maxSize s idx) rects GAP = true
      · rw [if_pos hv]
        apply ih
        simp only [List.length_append, List.length_singleton]
        omega
      · rw [if_neg hv]
        exact ih _ _ _ hl
    · rw [if_neg hlt]
      exact hl

lemma genLoop_attempts {width height minSize maxSize : ℚ} {s : ℕ → ℚ} {tc : ℕ} :
    ∀ (fuel idx : ℕ) (rects : List Rect) (att : ℕ),
      (genLoop width height minSize maxSize s tc fuel idx rects att).2 ≤ att + fuel := by
  intro fuel
  induction fuel with
  | zero =>
    intro idx rects att
    simp [genLoop]
  | succ n ih =>
    intro idx rects att
    simp only [genLoop]
    by_cases hlt : rects.length < tc
    · rw [if_pos hlt]
      by_cases hv : isValidPlacement (candAt width height minSize maxSize s idx) rects GAP = true
      · rw [if_pos hv]
        have := ih (idx + 4) (rects ++ [candAt width height minSize maxSize s idx]) (att + 1)
        omega
      · rw [if_neg hv]
        have := ih (idx + 4) rects (att + 1)
        omega
    · rw [if_neg hlt]
      simp

lemma generateRectangles_pairwise (width height minSize maxSize : ℚ) (tc : ℕ) (s : ℕ → ℚ) :
    List.Pairwise (fun a b => validAgainst b a GAP = true)
      (generateRectangles width height tc minSize maxSize s) :=
  genLoop_pairwise _ _ _ _ List.Pairwise.nil

lemma generateRectangles_mem {width height minSize maxSize : ℚ} {tc : ℕ} {s : ℕ → ℚ}
    {Q : Rect → Prop} (hQ : ∀ idx, Q (candAt width height minSize maxSize s idx)) :
    ∀ r ∈ generateRectangles width height tc minSize maxSize s, Q r :=
  genLoop_mem hQ _ _ _ _ (by simp)

lemma candAt_w (W H mS MS : ℚ) (s : ℕ → ℚ) (idx : ℕ) :
    (candAt W H mS MS s idx).w = randInt (s idx) mS MS := rfl

lemma candAt_h (W H mS MS : ℚ) (s : ℕ → ℚ) (idx : ℕ) :
    (candAt W H mS MS s idx).h = randInt (s (idx + 1)) mS MS := rfl

lemma candAt_x (W H mS MS : ℚ) (s : ℕ → ℚ) (idx : ℕ) :
    (candAt W H mS MS s idx).x =
      randInt (s (idx + 2)) 0 (max 0 (W - randInt (s idx) mS MS)) := rfl

lemma candAt_y (W H mS MS : ℚ) (s : ℕ → ℚ) (idx : ℕ) :
    (candAt W H mS MS s idx).y =
      randInt (s (idx + 3)) 0 (max 0 (H - randInt (s (idx + 1)) mS MS)) := rfl

/-- The candidate's width and height are integers in `[m, M]` whenever the
draws lie in `[0, 1)` and `m ≤ M`. -/
lemma candAt_size {W H : ℚ} {m M : ℤ} {s : ℕ → ℚ} (hs : ∀ n, 0 ≤ s n ∧ s n < 1)
    (hmM : m ≤ M) (idx : ℕ) :
    ∃ a b : ℤ, (candAt W H (m : ℚ) (M : ℚ) s idx).w = (a : ℚ) ∧ m ≤ a ∧ a ≤ M ∧
      (candAt W H (m : ℚ) (M : ℚ) s idx).h = (b : ℚ) ∧ m ≤ b ∧ b ≤ M := by
  obtain ⟨a, haeq, ha1, ha2⟩ := randInt_int_bounds m M (hs idx).1 (hs idx).2 hmM
  obtain ⟨b, hbeq, hb1, hb2⟩ :=
    randInt_int_bounds m M (hs (idx + 1)).1 (hs (idx + 1)).2 hmM
  exact ⟨a, b, by rw [candAt_w, haeq], ha1, ha2, by rw [candAt_h, hbeq], hb1, hb2⟩

lemma generateRectangles_sizes_aux {width height : ℚ} {tc : ℕ} {m M : ℤ} {s : ℕ → ℚ}
    (hs : ∀ n, 0 ≤ s n ∧ s n < 1) (hmM : m ≤ M) :
    ∀ r ∈ generateRectangles width height tc (m : ℚ) (M : ℚ) s,
      ∃ a b : ℤ, r.w = (a : ℚ) ∧ m ≤ a ∧ a ≤ M ∧ r.h = (b : ℚ) ∧ m ≤ b ∧ b ≤ M :=
  generateRectangles_mem (fun idx => candAt_size hs hmM idx)

lemma generateRectangles_size_nonneg {width height : ℚ} {tc : ℕ} {m M : ℤ} {s : ℕ → ℚ}
    (hs : ∀ n, 0 ≤ s n ∧ s n < 1) (hm : 1 ≤ m) (hmM : m ≤ M) :
    ∀ r ∈ generateRectangles width height tc (m : ℚ) (M : ℚ) s, 0 ≤ r.w ∧ 0 ≤ r.h := by
  intro r hr
  obtain ⟨a, b, hweq, ha1, _, hheq, hb1, _⟩ := generateRectangles_sizes_aux hs hmM r hr
  constructor
  · rw [hweq]
    exact_mod_cast (by omega : (0 : ℤ) ≤ a)
  · rw [hheq]
    exact_mod_cast (by omega : (0 : ℤ) ≤ b)

/-! ### The claims -/

/-- Claim C1: for every positive canvas, every target count, all integer sizes
`1 ≤ minSize ≤ maxSize` and every random stream, no two distinct rectangles in
the sequence returned by `generateRectangles` strictly intersect in area. -/
theorem generateRectangles_no_overlap (width height : ℚ) (targetCount : ℕ) (m M : ℤ)
    (s : ℕ → ℚ) (hw : 0 < width) (hh : 0 < height) (hm : 1 ≤ m) (hmM : m ≤ M)
    (hs : ∀ n, 0 ≤ s n ∧ s n < 1) :
    ∀ i j : Fin (generateRectangles width height targetCount (m : ℚ) (M : ℚ) s).length,
      i ≠ j →
      ¬ StrictOverlapP
        ((generateRectangles width height targetCount (m : ℚ) (M : ℚ) s).get i)
        ((generateRectangles width height targetCount (m : ℚ) (M : ℚ) s).get j) := by
  intro i j hij
  have hp := generateRectangles_pairwise width height (m : ℚ) (M : ℚ) targetCount s
  rw [List.pairwise_iff_get] at hp
  rcases lt_or_gt_of_ne hij with hlt | hlt
  · have hI := validAgainst_no_overlap (hp i j hlt)
    intro hov
    exact rectsIntersectStrict_eq_false_iff.mp hI (strictOverlapP_symm hov)
  · have hI := validAgainst_no_overlap (hp j i hlt)
    intro hov
    exact rectsIntersectStrict_eq_false_iff.mp hI hov

/-- The random stream used by the concrete witness runs: two 10×10 squares
placed at `(0, 0)` and `(45, 0)` on a 100×100 canvas. -/
def wStream : ℕ → ℚ := fun n => if n = 6 then 1 / 2 else 0

lemma wStream_range : ∀ n, 0 ≤ wStream n ∧ wStream n < 1 := by
  intro n
  unfold wStream
  split <;> norm_num

/-- Witness for C1 at a concrete input. -/
theorem generateRectangles_no_overlap_witness :
    (0 : ℚ) < 100 ∧ (1 : ℤ) ≤ 10 ∧ (10 : ℤ) ≤ 10 ∧
    (∀ n, 0 ≤ wStream n ∧ wStream n < 1) ∧
    ¬ StrictOverlapP
      ((generateRectangles 100 100 2 ((10 : ℤ) : ℚ) ((10 : ℤ) : ℚ) wStream).get
        ⟨0, by with_unfolding_all decide⟩)
      ((generateRectangles 100 100 2 ((10 : ℤ) : ℚ) ((10 : ℤ) : ℚ) wStream).get
        ⟨1, by with_unfolding_all decide⟩) := by
  refine ⟨by norm_num, by norm_num, by norm_num, wStream_range, ?_⟩
  exact generateRectangles_no_overlap 100 100 2 10 10 wStream (by norm_num) (by norm_num)
    (by norm_num) (by norm_num) wStream_range _ _ (Fin.ne_of_val_ne (by norm_num))

/-- Claim C2: distinct returned rectangles with no (inclusive) containment either
way have minimum border-to-border Euclidean distance — the hypotenuse of the two
per-axis separations — at least `GAP = 2`. -/
theorem generateRectangles_min_gap (width height : ℚ) (targetCount : ℕ) (m M : ℤ)
    (s : ℕ → ℚ) (hw : 0 < width) (hh : 0 < height) (hm : 1 ≤ m) (hmM : m ≤ M)
    (hs : ∀ n, 0 ≤ s n ∧ s n < 1) :
    ∀ i j : Fin (generateRectangles width height targetCount (m : ℚ) (M : ℚ) s).length,
      i ≠ j →
      rectContains ((generateRectangles width height targetCount (m : ℚ) (M : ℚ) s).get i)
        ((generateRectangles width height targetCount (m : ℚ) (M : ℚ) s).get j) = false →
      rectContains ((generateRectangles width height targetCount (m : ℚ) (M : ℚ) s).get j)
        ((generateRectangles width height targetCount (m : ℚ) (M : ℚ) s).get i) = false →
      (2 : ℝ) ≤ Real.sqrt
        ((minEdgeDistSq
          ((generateRectangles width height targetCount (m : ℚ) (M : ℚ) s).get i)
          ((generateRectangles width height targetCount (m : ℚ) (M : ℚ) s).get j) : ℚ) : ℝ) := by
  intro i j hij hci hcj
  have hp := generateRectangles_pairwise width height (m : ℚ) (M : ℚ) targetCount s
  rw [List.pairwise_iff_get] at hp
  have hnni := generateRectangles_size_nonneg hs hm hmM _
    (List.get_mem (generateRectangles width height targetCount (m : ℚ) (M : ℚ) s) i.1 i.2)
  have hnnj := generateRectangles_size_nonneg hs hm hmM _
    (List.get_mem (generateRectangles width height targetCount (m : ℚ) (M : ℚ) s) j.1 j.2)
  rcases lt_or_gt_of_ne hij with hlt | hlt
  · have hd := validAgainst_distSq (hp i j hlt) hci hcj
    rw [show GAP ^ 2 = (4 : ℚ) by norm_num [GAP]] at hd
    rw [minEdgeDistSq_comm hnni.1 hnnj.1 hnni.2 hnnj.2]
    exact two_le_sqrt hd
  · have hd := validAgainst_distSq (hp j i hlt) hcj hci
    rw [show GAP ^ 2 = (4 : ℚ) by norm_num [GAP]] at hd
    exact two_le_sqrt hd

/-- Witness for C2 at a concrete input. -/
theorem generateRectangles_min_gap_witness :
    (0 : ℚ) < 100 ∧ (1 : ℤ) ≤ 10 ∧ (10 : ℤ) ≤ 10 ∧
    (∀ n, 0 ≤ wStream n ∧ wStream n < 1) ∧
    rectContains ((generateRectangles 100 100 2 ((10 : ℤ) : ℚ) ((10 : ℤ) : ℚ) wStream).get
        ⟨0, by with_unfolding_all decide⟩)
      ((generateRectangles 100 100 2 ((10 : ℤ) : ℚ) ((10 : ℤ) : ℚ) wStream).get
        ⟨1, by with_unfolding_all decide⟩) = false ∧
    (2 : ℝ) ≤ Real.sqrt
      ((minEdgeDistSq
        ((generateRectangles 100 100 2 ((10 : ℤ) : ℚ) ((10 : ℤ) : ℚ) wStream).get
          ⟨0, by with_unfolding_all decide⟩)
        ((generateRectangles 100 100 2 ((10 : ℤ) : ℚ) ((10 : ℤ) : ℚ) wStream).get
          ⟨1, by with_unfolding_all decide⟩) : ℚ) : ℝ) := by
  refine ⟨by norm_num, by norm_num, by norm_num, wStream_range,
    by with_unfolding_all decide, ?_⟩
  exact generateRectangles_min_gap 100 100 2 10 10 wStream (by norm_num) (by norm_num)
    (by norm_num) (by norm_num) wStream_range _ _ (Fin.ne_of_val_ne (by norm_num))
    (by with_unfolding_all decide) (by with_unfolding_all decide)

/-- Any rectangle of positive width and height that is (inclusively) contained
in another strictly intersects it in area — so the strict-overlap early return
of `isValidPlacement` (line 222) fires before its containment branch
(lines 230-237) can ever accept a nested candidate. -/
lemma rectContains_pos_overlap {outer inner : Rect} (h : rectContains outer inner = true)
    (hw : 0 < inner.w) (hh : 0 < inner.h) : rectsIntersectStrict inner outer = true := by
  simp only [rectContains, Bool.and_eq_true, decide_eq_true_eq, ge_iff_le, and_assoc] at h
  obtain ⟨hx, hy, hxw, hyh⟩ := h
  simp only [rectsIntersectStrict, Bool.not_eq_true', Bool.or_eq_false_iff,
    decide_eq_false_iff_not, not_le]
  refine ⟨⟨⟨by linarith, by linarith⟩, by linarith⟩, by linarith⟩

/-- Claim C3 (code-bug evidence): the candidate `(10,10,20,20)` sits inside
`(0,0,50,50)` with 10px margins on all sides — `containsWithGap` holds with
room to spare — yet `isValidPlacement` rejects it, because the strict-overlap
early return fires on every nested pair of positive-size rectangles and the
containment-margin branch is unreachable.  The code's own comments
(`src/rects.js` lines 5, 216, 226) say such nesting is allowed. -/
theorem isValidPlacement_rejects_nested_example :
    containsWithGap ⟨0, 0, 50, 50⟩ ⟨10, 10, 20, 20⟩ GAP = true ∧
    rectContains ⟨0, 0, 50, 50⟩ ⟨10, 10, 20, 20⟩ = true ∧
    isValidPlacement ⟨10, 10, 20, 20⟩ [⟨0, 0, 50, 50⟩] GAP = false := by
  with_unfolding_all decide

/-- Claim C4 counterexample: with `minSize = maxSize = 25` on a 20×20 canvas
(inputs the claim allows: no constraint relates the sizes to the canvas) and
the all-zero stream, the returned rectangle `(0,0,25,25)` extends past the
right and bottom canvas edges. -/
theorem generateRectangles_canvas_overflow :
    ¬ (∀ r ∈ generateRectangles 20 20 1 ((25 : ℤ) : ℚ) ((25 : ℤ) : ℚ) (fun _ => 0),
        0 ≤ r.x ∧ 0 ≤ r.y ∧ r.x + r.w ≤ 20 ∧ r.y + r.h ≤ 20) := by
  intro hall
  have hmem : (⟨0, 0, 25, 25⟩ : Rect) ∈
      generateRectangles 20 20 1 ((25 : ℤ) : ℚ) ((25 : ℤ) : ℚ) (fun _ => 0) := by
    with_unfolding_all decide
  have h3 := (hall _ hmem).2.2.1
  norm_num at h3

/-- One loop candidate stays inside an integer canvas when the size bounds fit
the canvas (`M ≤ W`, `M ≤ H`) and the draws lie in `[0, 1)`. -/
lemma candAt_inside {W H m M : ℤ} {s : ℕ → ℚ} (hs : ∀ n, 0 ≤ s n ∧ s n < 1)
    (hm : 1 ≤ m) (hmM : m ≤ M) (hMW : M ≤ W) (hMH : M ≤ H) (idx : ℕ) :
    0 ≤ (candAt (W : ℚ) (H : ℚ) (m : ℚ) (M : ℚ) s idx).x ∧
    0 ≤ (candAt (W : ℚ) (H : ℚ) (m : ℚ) (M : ℚ) s idx).y ∧
    (candAt (W : ℚ) (H : ℚ) (m : ℚ) (M : ℚ) s idx).x +
      (candAt (W : ℚ) (H : ℚ) (m : ℚ) (M : ℚ) s idx).w ≤ (W : ℚ) ∧
    (candAt (W : ℚ) (H : ℚ) (m : ℚ) (M : ℚ) s idx).y +
      (candAt (W : ℚ) (H : ℚ) (m : ℚ) (M : ℚ) s idx).h ≤ (H : ℚ) := by
  obtain ⟨a, haeq, ha1, ha2⟩ := randInt_int_bounds m M (hs idx).1 (hs idx).2 hmM
  obtain ⟨b, hbeq, hb1, hb2⟩ :=
    randInt_int_bounds m M (hs (idx + 1)).1 (hs (idx + 1)).2 hmM
  have hxmax : max (0 : ℚ) ((W : ℚ) - randInt (s idx) (m : ℚ) (M : ℚ)) =
      ((W - a : ℤ) : ℚ) := by
    rw [haeq, max_eq_right]
    · push_cast
      ring
    · have : (a : ℚ) ≤ (W : ℚ) := by exact_mod_cast (by omega : a ≤ W)
      linarith
  have hymax : max (0 : ℚ) ((H : ℚ) - randInt (s (idx + 1)) (m : ℚ) (M : ℚ)) =
      ((H - b : ℤ) : ℚ) := by
    rw [hbeq, max_eq_right]
    · push_cast
      ring
    · have : (b : ℚ) ≤ (H : ℚ) := by exact_mod_cast (by omega : b ≤ H)
      linarith
  obtain ⟨k, hkeq, hk1, hk2⟩ :=
    randInt_int_bounds 0 (W - a) (hs (idx + 2)).1 (hs (idx + 2)).2 (by omega)
  obtain ⟨l, hleq, hl1, hl2⟩ :=
    randInt_int_bounds 0 (H - b) (hs (idx + 3)).1 (hs (idx + 3)).2 (by omega)
  have hx : (candAt (W : ℚ) (H : ℚ) (m : ℚ) (M : ℚ) s idx).x = (k : ℚ) := by
    rw [candAt_x, hxmax]
    simpa using hkeq
  have hy : (candAt (W : ℚ) (H : ℚ) (m : ℚ) (M : ℚ) s idx).y = (l : ℚ) := by
    rw [candAt_y, hymax]
    simpa using hleq
  have hwv : (candAt (W : ℚ) (H : ℚ) (m : ℚ) (M : ℚ) s idx).w = (a : ℚ) := by
    rw [candAt_w, haeq]
  have hhv : (candAt (W : ℚ) (H : ℚ) (m : ℚ) (M : ℚ) s idx).h = (b : ℚ) := by
    rw [candAt_h, hbeq]
  rw [hx, hy, hwv, hhv]
  refine ⟨by exact_mod_cast hk1, by exact_mod_cast hl1, ?_, ?_⟩
  · have : k + a ≤ W := by omega
    exact_mod_cast this
  · have : l + b ≤ H := by omega
    exact_mod_cast this

/-- Claim C4 as amended: when additionally the canvas is an integer grid and the
sizes fit it (`maxSize ≤ width`, `maxSize ≤ height`), every returned rectangle
lies within `[0, width] × [0, height]`. -/
theorem generateRectangles_canvas_containment (W H m M : ℤ) (targetCount : ℕ)
    (s : ℕ → ℚ) (hW : 0 < W) (hH : 0 < H) (hm : 1 ≤ m) (hmM : m ≤ M)
    (hMW : M ≤ W) (hMH : M ≤ H) (hs : ∀ n, 0 ≤ s n ∧ s n < 1) :
    ∀ r ∈ generateRectangles (W : ℚ) (H : ℚ) targetCount (m : ℚ) (M : ℚ) s,
      0 ≤ r.x ∧ 0 ≤ r.y ∧ r.x + r.w ≤ (W : ℚ) ∧ r.y + r.h ≤ (H : ℚ) :=
  generateRectangles_mem (fun idx => candAt_inside hs hm hmM hMW hMH idx)

/-- Witness for the amended C4 at a concrete input. -/
theorem generateRectangles_canvas_containment_witness :
    (0 : ℤ) < 100 ∧ (1 : ℤ) ≤ 10 ∧ (10 : ℤ) ≤ 20 ∧ (20 : ℤ) ≤ 100 ∧
    (∀ n, 0 ≤ (fun _ : ℕ => (0 : ℚ)) n ∧ (fun _ : ℕ => (0 : ℚ)) n < 1) ∧
    (⟨0, 0, 10, 10⟩ : Rect) ∈
      generateRectangles ((100 : ℤ) : ℚ) ((100 : ℤ) : ℚ) 1 ((10 : ℤ) : ℚ) ((20 : ℤ) : ℚ)
        (fun _ => 0) ∧
    (0 ≤ (⟨0, 0, 10, 10⟩ : Rect).x ∧ 0 ≤ (⟨0, 0, 10, 10⟩ : Rect).y ∧
      (⟨0, 0, 10, 10⟩ : Rect).x + (⟨0, 0, 10, 10⟩ : Rect).w ≤ ((100 : ℤ) : ℚ) ∧
      (⟨0, 0, 10, 10⟩ : Rect).y + (⟨0, 0, 10, 10⟩ : Rect).h ≤ ((100 : ℤ) : ℚ)) := by
  have hmem : (⟨0, 0, 10, 10⟩ : Rect) ∈
      generateRectangles ((100 : ℤ) : ℚ) ((100 : ℤ) : ℚ) 1 ((10 : ℤ) : ℚ) ((20 : ℤ) : ℚ)
        (fun _ => 0) := by
    with_unfolding_all decide
  refine ⟨by norm_num, by norm_num, by norm_num, by norm_num, by intro n; norm_num,
    hmem, ?_⟩
  exact generateRectangles_canvas_containment 100 100 10 20 1 (fun _ => 0) (by norm_num)
    (by norm_num) (by norm_num) (by norm_num) (by norm_num) (by norm_num)
    (by intro n; norm_num) _ hmem

/-- Claim C5: the packer is total (it is defined by structural recursion on the
attempt budget), its `attempts` counter — the number of loop iterations, one
`isValidPlacement` call each — never exceeds
`targetCount * MAX_ATTEMPTS_PER_RECT`, and it returns at most `targetCount`
rectangles. -/
theorem generateRectangles_bounded (width height : ℚ) (targetCount : ℕ) (m M : ℤ)
    (s : ℕ → ℚ) (hw : 0 < width) (hh : 0 < height) (hm : 1 ≤ m) (hmM : m ≤ M)
    (hs : ∀ n, 0 ≤ s n ∧ s n < 1) :
    generateAttempts width height targetCount (m : ℚ) (M : ℚ) s ≤
      targetCount * MAX_ATTEMPTS_PER_RECT ∧
    (generateRectangles width height targetCount (m : ℚ) (M : ℚ) s).length ≤
      targetCount := by
  constructor
  · have h := @genLoop_attempts width height (m : ℚ) (M : ℚ) s targetCount
      (targetCount * MAX_ATTEMPTS_PER_RECT) 0 [] 0
    simpa [generateAttempts] using h
  · exact genLoop_length _ _ _ _ (by simp)

/-- Witness for C5 at a concrete input. -/
theorem generateRectangles_bounded_witness :
    (0 : ℚ) < 100 ∧ (1 : ℤ) ≤ 10 ∧ (10 : ℤ) ≤ 20 ∧
    (∀ n, 0 ≤ wStream n ∧ wStream n < 1) ∧
    (generateAttempts 100 100 1 ((10 : ℤ) : ℚ) ((20 : ℤ) : ℚ) wStream ≤
        1 * MAX_ATTEMPTS_PER_RECT ∧
      (generateRectangles 100 100 1 ((10 : ℤ) : ℚ) ((20 : ℤ) : ℚ) wStream).length ≤ 1) :=
  ⟨by norm_num, by norm_num, by norm_num, wStream_range,
    generateRectangles_bounded 100 100 1 10 20 wStream (by norm_num) (by norm_num)
      (by norm_num) (by norm_num) wStream_range⟩

/-- Claim C6: with `targetCount = 0` the attempt budget is `0 * 500 = 0`, so the
loop body never runs: the packer immediately returns the empty list with zero
attempts. -/
theorem generateRectangles_zero_target (width height : ℚ) (m M : ℤ) (s : ℕ → ℚ)
    (hw : 0 < width) (hh : 0 < height) (hm : 1 ≤ m) (hmM : m ≤ M)
    (hs : ∀ n, 0 ≤ s n ∧ s n < 1) :
    generateRectangles width height 0 (m : ℚ) (M : ℚ) s = [] ∧
    generateAttempts width height 0 (m : ℚ) (M : ℚ) s = 0 :=
  ⟨rfl, rfl⟩

/-- Witness for C6: the claim's own scenario `pack(100, 100, 0, 10, 20) = []`. -/
theorem generateRectangles_zero_target_witness :
    (0 : ℚ) < 100 ∧ (1 : ℤ) ≤ 10 ∧ (10 : ℤ) ≤ 20 ∧
    (∀ n, 0 ≤ (fun _ : ℕ => (0 : ℚ)) n ∧ (fun _ : ℕ => (0 : ℚ)) n < 1) ∧
    (generateRectangles 100 100 0 ((10 : ℤ) : ℚ) ((20 : ℤ) : ℚ) (fun _ => 0) = [] ∧
      generateAttempts 100 100 0 ((10 : ℤ) : ℚ) ((20 : ℤ) : ℚ) (fun _ => 0) = 0) :=
  ⟨by norm_num, by norm_num, by norm_num, by intro n; norm_num,
    generateRectangles_zero_target 100 100 10 20 (fun _ => 0) (by norm_num) (by norm_num)
      (by norm_num) (by norm_num) (by intro n; norm_num)⟩

/-- Claim C7: every returned rectangle has integer width and height drawn from
the inclusive range `[minSize, maxSize]`. -/
theorem generateRectangles_sizes (width height : ℚ) (targetCount : ℕ) (m M : ℤ)
    (s : ℕ → ℚ) (hw : 0 < width) (hh : 0 < height) (hm : 1 ≤ m) (hmM : m ≤ M)
    (hs : ∀ n, 0 ≤ s n ∧ s n < 1) :
    ∀ r ∈ generateRectangles width height targetCount (m : ℚ) (M : ℚ) s,
      ∃ a b : ℤ, r.w = (a : ℚ) ∧ m ≤ a ∧ a ≤ M ∧ r.h = (b : ℚ) ∧ m ≤ b ∧ b ≤ M :=
  generateRectangles_sizes_aux hs hmM

/-- Witness for C7 at a concrete input. -/
theorem generateRectangles_sizes_witness :
    (0 : ℚ) < 100 ∧ (1 : ℤ) ≤ 10 ∧ (10 : ℤ) ≤ 20 ∧
    (∀ n, 0 ≤ (fun _ : ℕ => (0 : ℚ)) n ∧ (fun _ : ℕ => (0 : ℚ)) n < 1) ∧
    (⟨0, 0, 10, 10⟩ : Rect) ∈
      generateRectangles 100 100 1 ((10 : ℤ) : ℚ) ((20 : ℤ) : ℚ) (fun _ => 0) ∧
    (∃ a b : ℤ, (⟨0, 0, 10, 10⟩ : Rect).w = (a : ℚ) ∧ 10 ≤ a ∧ a ≤ 20 ∧
      (⟨0, 0, 10, 10⟩ : Rect).h = (b : ℚ) ∧ 10 ≤ b ∧ b ≤ 20) := by
  have hmem : (⟨0, 0, 10, 10⟩ : Rect) ∈
      generateRectangles 100 100 1 ((10 : ℤ) : ℚ) ((20 : ℤ) : ℚ) (fun _ => 0) := by
    with_unfolding_all decide
  refine ⟨by norm_num, by norm_num, by norm_num, by intro n; norm_num, hmem, ?_⟩
  exact generateRectangles_sizes 100 100 1 10 20 (fun _ => 0) (by norm_num) (by norm_num)
    (by norm_num) (by norm_num) (by intro n; norm_num) _ hmem

/-- Under the all-zero stream, every loop candidate on the 1000×1000 canvas
with sizes in `[10, 20]` is the same square `(0, 0, 10, 10)`. -/
lemma candAt_const_zero (idx : ℕ) :
    candAt 1000 1000 10 20 (fun _ => 0) idx = ⟨0, 0, 10, 10⟩ := by
  simp [candAt, randInt, Rect.mk.injEq]

/-- Once one rectangle is placed, the all-zero stream proposes only duplicates
of it, so the loop spins through its whole budget without placing another. -/
lemma genLoop_const_zero_stuck :
    ∀ (fuel idx att : ℕ),
      genLoop 1000 1000 10 20 (fun _ => 0) 50 fuel idx [⟨0, 0, 10, 10⟩] att =
        ([⟨0, 0, 10, 10⟩], att + fuel) := by
  intro fuel
  induction fuel with
  | zero =>
    intro idx att
    rfl
  | succ n ih =>
    intro idx att
    have hv : ¬ (isValidPlacement ⟨0, 0, 10, 10⟩ [⟨0, 0, 10, 10⟩] GAP = true) := by
      with_unfolding_all decide
    simp only [genLoop]
    rw [candAt_const_zero idx]
    rw [if_pos (by norm_num : ([(⟨0, 0, 10, 10⟩ : Rect)]).length < 50)]
    rw [if_neg hv]
    rw [ih (idx + 4) (att + 1)]
    congr 1
    omega

/-- Unfolding one accepted iteration of the placement loop. -/
lemma genLoop_step_accept (w h mS MS : ℚ) (s : ℕ → ℚ) (tc fuel idx : ℕ)
    (rects : List Rect) (att : ℕ) (hlt : rects.length < tc)
    (hv : isValidPlacement (candAt w h mS MS s idx) rects GAP = true) :
    genLoop w h mS MS s tc (fuel + 1) idx rects att =
      genLoop w h mS MS s tc fuel (idx + 4) (rects ++ [candAt w h mS MS s idx])
        (att + 1) := by
  simp only [genLoop]
  rw [if_pos hlt, if_pos hv]

/-- The all-zero run on the 1000×1000 canvas: the first candidate is accepted
and every later one rejected, so the loop ends with a single square. -/
lemma genLoop_const_zero_run :
    genLoop 1000 1000 10 20 (fun _ => 0) 50 (24999 + 1) 0 [] 0 =
      ([⟨0, 0, 10, 10⟩], 1 + 24999) := by
  have hv0 : isValidPlacement (candAt 1000 1000 10 20 (fun _ => 0) 0) [] GAP = true := by
    rw [candAt_const_zero 0]
    exact rfl
  have h2 := genLoop_step_accept 1000 1000 10 20 (fun _ => 0) 50 24999 0 [] 0
    (by norm_num) hv0
  have hargs : ([] : List Rect) ++ [candAt 1000 1000 10 20 (fun _ => 0) 0] =
      [⟨0, 0, 10, 10⟩] := by
    rw [candAt_const_zero 0]
    exact rfl
  rw [hargs] at h2
  simp only [Nat.zero_add] at h2
  rw [h2, genLoop_const_zero_stuck 24999 4 1]

/-- The same run, with the fuel written as `50 * MAX_ATTEMPTS_PER_RECT`. -/
lemma genLoop_const_zero_run_fuel :
    genLoop 1000 1000 10 20 (fun _ => 0) 50 (50 * MAX_ATTEMPTS_PER_RECT) 0 [] 0 =
      ([⟨0, 0, 10, 10⟩], 1 + 24999) := by
  have hfuel : 50 * MAX_ATTEMPTS_PER_RECT = 24999 + 1 := by
    norm_num [MAX_ATTEMPTS_PER_RECT]
  rw [hfuel]
  exact genLoop_const_zero_run

/-- `generateRectangles` unfolded to the loop, stated at variables. -/
lemma generateRectangles_def (width height mS MS : ℚ) (tc : ℕ) (s : ℕ → ℚ) :
    generateRectangles width height tc mS MS s =
      (genLoop width height mS MS s tc (tc * MAX_ATTEMPTS_PER_RECT) 0 [] 0).1 := rfl

/-- Claim C8 counterexample: for the (in-range) all-zero stream,
`generateRectangles 1000 1000 50 10 20` places a single rectangle, not 50. -/
theorem generateRectangles_not_always_fifty :
    (generateRectangles 1000 1000 50 10 20 (fun _ => 0)).length ≠ 50 := by
  rw [generateRectangles_def]
  rw [genLoop_const_zero_run_fuel]
  norm_num

/-- Claim C8 as amended: for every (in-range) random stream the run returns at
most 50 rectangles, and every pair of them satisfies the gap/containment
invariant (edge distance ≥ 2 for non-nested pairs, ≥ GAP margins on all sides
for nested pairs); exactly 50 is not guaranteed for every stream. -/
theorem generateRectangles_fifty_bounded (s : ℕ → ℚ)
    (hs : ∀ n, 0 ≤ s n ∧ s n < 1) :
    (generateRectangles 1000 1000 50 10 20 s).length ≤ 50 ∧
    List.Pairwise (fun a b =>
      (rectContains a b = false → rectContains b a = false →
        (2 : ℝ) ≤ Real.sqrt ((minEdgeDistSq a b : ℚ) : ℝ)) ∧
      (rectContains a b = true → containsWithGap a b GAP = true) ∧
      (rectContains b a = true → containsWithGap b a GAP = true))
      (generateRectangles 1000 1000 50 10 20 s) := by
  have hbase := @generateRectangles_size_nonneg 1000 1000 50 10 20 s hs
    (by norm_num) (by norm_num)
  push_cast at hbase
  constructor
  · exact genLoop_length _ _ _ _ (by simp)
  · have hp := generateRectangles_pairwise 1000 1000 10 20 50 s
    refine List.Pairwise.imp_of_mem ?_ hp
    intro a b ha hb hv
    have hna := hbase a ha
    have hnb := hbase b hb
    refine ⟨?_, ?_, ?_⟩
    · intro hab hba
      have hd := validAgainst_distSq hv hab hba
      rw [show GAP ^ 2 = (4 : ℚ) by norm_num [GAP]] at hd
      rw [minEdgeDistSq_comm hna.1 hnb.1 hna.2 hnb.2]
      exact two_le_sqrt hd
    · intro hab
      exact validAgainst_margin₁ hv hab
    · intro hba
      exact validAgainst_margin₂ (by norm_num [GAP]) hv hba

/-- Witness for the amended C8 at a concrete stream. -/
theorem generateRectangles_fifty_bounded_witness :
    (∀ n, 0 ≤ (fun _ : ℕ => (0 : ℚ)) n ∧ (fun _ : ℕ => (0 : ℚ)) n < 1) ∧
    ((generateRectangles 1000 1000 50 10 20 (fun _ => 0)).length ≤ 50 ∧
      List.Pairwise (fun a b =>
        (rectContains a b = false → rectContains b a = false →
          (2 : ℝ) ≤ Real.sqrt ((minEdgeDistSq a b : ℚ) : ℝ)) ∧
        (rectContains a b = true → containsWithGap a b GAP = true) ∧
        (rectContains b a = true → containsWithGap b a GAP = true))
        (generateRectangles 1000 1000 50 10 20 (fun _ => 0))) :=
  ⟨by intro n; norm_num,
    generateRectangles_fifty_bounded (fun _ => 0) (by intro n; norm_num)⟩

/-- The touch/zero-distance clause never decides a pair at `gap = 2`: whenever
it would fire, the squared distance is `0 < 2²` and the distance check has
already rejected the pair. -/
lemma validAgainstSansTouch_eq_aux (c r : Rect) :
    validAgainstSansTouch c r 2 = validAgainst c r 2 := by
  unfold validAgainst validAgainstSansTouch
  by_cases hA : rectsIntersectStrict c r = true
  · simp [hA]
  · by_cases hB : (rectContains r c || rectContains c r) = true
    · simp [hA, hB]
    · by_cases hD : decide (minEdgeDistSq c r < 2 ^ 2) = true
      · simp [hA, hB, hD]
      · have hD' : ¬ (minEdgeDistSq c r < 2 ^ 2) := by simpa using hD
        have hzero : decide (minEdgeDistSq c r = 0) = false := by
          rw [decide_eq_false_iff_not]
          intro h0
          apply hD'
          rw [h0]
          norm_num
        simp [hA, hB, hD, hzero]

lemma isValidPlacementSansTouch_eq_aux (candidate : Rect) (rects : List Rect) :
    isValidPlacementSansTouch candidate rects 2 = isValidPlacement candidate rects 2 := by
  unfold isValidPlacement isValidPlacementSansTouch
  congr 1
  funext r
  exact validAgainstSansTouch_eq_aux candidate r

/-- Claim C9 counterexample (proving the claim's negation): at `gap = 2` the
validity check with the touch/zero-distance clause removed is extensionally
equal to `isValidPlacement`, so no pair of rectangles is rejected by the
clause yet accepted by the remaining checks. -/
theorem touch_clause_no_separating_pair :
    (fun (candidate : Rect) (rects : List Rect) =>
      isValidPlacementSansTouch candidate rects 2) =
    (fun (candidate : Rect) (rects : List Rect) =>
      isValidPlacement candidate rects 2) := by
  funext candidate rects
  exact isValidPlacementSansTouch_eq_aux candidate rects

/-- Claim C9 as amended: at `gap = GAP = 2` the explicit touch/zero-distance
clause is redundant — removing it yields an extensionally equal validity
check, every touching pair being rejected already by `dist < gap`. -/
theorem isValidPlacementSansTouch_eq (candidate : Rect) (rects : List Rect) :
    isValidPlacementSansTouch candidate rects 2 = isValidPlacement candidate rects 2 :=
  isValidPlacementSansTouch_eq_aux candidate rects

/-- `clampNumber` with integer bounds and an integer fallback inside them
yields an integer inside them. -/
lemma clampNumber_spec (v : Option ℚ) (lo hi fb : ℚ)
    (hlo : ∃ a : ℤ, lo = (a : ℚ)) (hhi : ∃ b : ℤ, hi = (b : ℚ))
    (hfb : ∃ n : ℤ, fb = (n : ℚ))
    (h1 : lo ≤ hi) (h2 : lo ≤ fb) (h3 : fb ≤ hi) :
    (∃ k : ℤ, clampNumber v lo hi fb = (k : ℚ)) ∧
    lo ≤ clampNumber v lo hi fb ∧ clampNumber v lo hi fb ≤ hi := by
  cases v with
  | none => exact ⟨hfb, h2, h3⟩
  | some num =>
    simp only [clampNumber]
    split_ifs with hlt hgt
    · exact ⟨hlo, le_refl _, h1⟩
    · exact ⟨hhi, h1, le_refl _⟩
    · exact ⟨⟨jsRound num, rfl⟩, not_lt.mp hlt, not_lt.mp hgt⟩

/-- Claim C10: for every input — `null`, non-objects, or objects with missing,
non-numeric or out-of-range fields — `sanitizeConfig` returns integers with
`5 ≤ minSize ≤ 30`, `minSize ≤ maxSize ≤ 50` and `500 ≤ count ≤ 5000`; in
particular the packer precondition `1 ≤ minSize ≤ maxSize`, `1 ≤ count` holds
and `targetCount = 0` can never reach the packer via the sanitized path. -/
theorem sanitizeConfig_valid (config : Option RawConfig) :
    (∃ a : ℤ, (sanitizeConfig config).minSize = (a : ℚ)) ∧
    5 ≤ (sanitizeConfig config).minSize ∧ (sanitizeConfig config).minSize ≤ 30 ∧
    (∃ b : ℤ, (sanitizeConfig config).maxSize = (b : ℚ)) ∧
    (sanitizeConfig config).minSize ≤ (sanitizeConfig config).maxSize ∧
    (sanitizeConfig config).maxSize ≤ 50 ∧
    (∃ k : ℤ, (sanitizeConfig config).count = (k : ℚ)) ∧
    500 ≤ (sanitizeConfig config).count ∧ (sanitizeConfig config).count ≤ 5000 ∧
    1 ≤ (sanitizeConfig config).minSize ∧ 1 ≤ (sanitizeConfig config).count := by
  cases config with
  | none =>
    refine ⟨⟨5, by norm_num [sanitizeConfig]⟩, by norm_num [sanitizeConfig],
      by norm_num [sanitizeConfig], ⟨50, by norm_num [sanitizeConfig]⟩,
      by norm_num [sanitizeConfig], by norm_num [sanitizeConfig],
      ⟨1000, by norm_num [sanitizeConfig]⟩, by norm_num [sanitizeConfig],
      by norm_num [sanitizeConfig], by norm_num [sanitizeConfig],
      by norm_num [sanitizeConfig]⟩
  | some c =>
    have hmin := clampNumber_spec c.minSize 5 30 5 ⟨5, by norm_num⟩ ⟨30, by norm_num⟩
      ⟨5, by norm_num⟩ (by norm_num) (by norm_num) (by norm_num)
    have hmaxfb : max (50 : ℚ) (clampNumber c.minSize 5 30 5) = 50 :=
      max_eq_left (by linarith [hmin.2.2])
    have hmaxc := clampNumber_spec c.maxSize 10 50
      (max 50 (clampNumber c.minSize 5 30 5)) ⟨10, by norm_num⟩ ⟨50, by norm_num⟩
      (by rw [hmaxfb]; exact ⟨50, by norm_num⟩) (by norm_num)
      (by rw [hmaxfb]; norm_num) (by rw [hmaxfb])
    have hcnt := clampNumber_spec c.count 500 5000 1000 ⟨500, by norm_num⟩
      ⟨5000, by norm_num⟩ ⟨1000, by norm_num⟩ (by norm_num) (by norm_num) (by norm_num)
    obtain ⟨am, ham⟩ := hmin.1
    obtain ⟨ac, hac⟩ := hmaxc.1
    simp only [sanitizeConfig]
    refine ⟨⟨am, ham⟩, hmin.2.1, hmin.2.2, ⟨max am ac, ?_⟩, le_max_left _ _,
      max_le (hmin.2.2.trans (by norm_num)) hmaxc.2.2, hcnt.1,
      hcnt.2.1, hcnt.2.2, (by norm_num : (1 : ℚ) ≤ 5).trans hmin.2.1,
      (by norm_num : (1 : ℚ) ≤ 500).trans hcnt.2.1⟩
    rw [hac, ham, Int.cast_max]

end RectangleJoy
